import Mathlib

/-!
Shallow embedding of the GTFS-RT ingestion pipeline of the
transit-analytics-dashboard repository, together with proofs of the
spec claims about it.

Embedded modules:
* `src/ingestion/data_quality.py`  — `DataQualityValidator`
* `src/ingestion/gtfs_rt_parser.py` — `GTFSRealtimeParser`
* `src/ingestion/s3_uploader.py`   — `S3Uploader`
* `src/ingestion/dynamodb_writer.py` — `DynamoDBWriter` batch writes
* `src/ingestion/lambda_handler.py` — `handler`

Modelling conventions: Python `None` and an absent dictionary key are both
`Option.none` (the code only ever distinguishes them through
`field not in record or record[field] is None` and `record.get`, which
identify the two).  Python floats that are only compared against constants
are modelled as rationals.  Python `set` objects used solely through
membership and insertion are modelled as `List String`.  External effects
(HTTP fetch, S3 put, DynamoDB put, wall-clock time) are parameters of the
embedded functions.
-/

namespace TransitAnalytics

/-- A vehicle position record as produced by `parse_vehicle_positions` and
consumed by `DataQualityValidator`.  Every field the code reads via
`record.get(...)` is present, as an `Option`. -/
structure VehicleRecord where
  vehicle_id : Option String
  trip_id : Option String
  route_id : Option String
  latitude : Option ℚ
  longitude : Option ℚ
  bearing : Option ℚ
  speed : Option ℚ
  timestamp : Option String
  current_stop_sequence : Option Nat
  current_status : Option Nat
  congestion_level : Option Nat
  feed_timestamp : Option String
deriving DecidableEq, Repr

/-- A trip update record as produced by `parse_trip_updates` (one per
stop-time-update) and consumed by `DataQualityValidator`. -/
structure TripRecord where
  trip_id : Option String
  route_id : Option String
  vehicle_id : Option String
  stop_id : Option String
  stop_sequence : Option Nat
  arrival_delay : Option Int
  arrival_time : Option String
  departure_delay : Option Int
  departure_time : Option String
  schedule_relationship : Option Nat
  feed_timestamp : Option String
deriving DecidableEq, Repr

/-- The `self.stats` dictionary of `DataQualityValidator.__init__`
(data_quality.py, lines 22-31). -/
structure QualityStats where
  vehicles_processed : Nat
  vehicles_valid : Nat
  vehicles_invalid : Nat
  vehicles_duplicate : Nat
  trip_updates_processed : Nat
  trip_updates_valid : Nat
  trip_updates_invalid : Nat
  trip_updates_duplicate : Nat
deriving DecidableEq, Repr

/-- The mutable state of one `DataQualityValidator` instance:
`seen_vehicles`, `seen_trip_updates` (Python sets of key strings, modelled
as lists used through membership and insertion) and `stats`. -/
structure ValidatorState where
  seen_vehicles : List String
  seen_trip_updates : List String
  stats : QualityStats
deriving DecidableEq, Repr

/-- The state of a freshly constructed `DataQualityValidator()`: empty
dedup caches and all-zero counters. -/
def initialState : ValidatorState :=
  { seen_vehicles := []
    seen_trip_updates := []
    stats := { vehicles_processed := 0, vehicles_valid := 0
               vehicles_invalid := 0, vehicles_duplicate := 0
               trip_updates_processed := 0, trip_updates_valid := 0
               trip_updates_invalid := 0, trip_updates_duplicate := 0 } }

/-- `DataQualityValidator.validate_vehicle_position` (data_quality.py,
lines 33-63): required fields `vehicle_id`, `latitude`, `longitude`,
`timestamp` must be non-null; latitude within [-90, 90]; longitude within
[-180, 180]; speed, when present, non-negative. -/
def validate_vehicle_position (r : VehicleRecord) : Bool :=
  if r.vehicle_id.isNone || r.latitude.isNone || r.longitude.isNone
      || r.timestamp.isNone then
    false
  else if (match r.latitude with
           | some lat => decide (lat < -90) || decide (lat > 90)
           | none => false) then
    false
  else if (match r.longitude with
           | some lon => decide (lon < -180) || decide (lon > 180)
           | none => false) then
    false
  else if (match r.speed with
           | some s => decide (s < 0)
           | none => false) then
    false
  else
    true

/-- `DataQualityValidator.validate_trip_update` (data_quality.py, lines
65-80): required fields `trip_id`, `stop_id`, `feed_timestamp` non-null. -/
def validate_trip_update (r : TripRecord) : Bool :=
  !(r.trip_id.isNone || r.stop_id.isNone || r.feed_timestamp.isNone)

/-- Python string interpolation of an optional string: `None` prints as
`"None"`, a string prints as itself (used in the dedup f-string keys). -/
def pyShow : Option String → String
  | some s => s
  | none => "None"

/-- The dedup key built at data_quality.py line 95. -/
def vehicleKey (r : VehicleRecord) : String :=
  pyShow r.vehicle_id ++ "_" ++ pyShow r.timestamp

/-- The dedup key built at data_quality.py line 118. -/
def tripKey (r : TripRecord) : String :=
  pyShow r.trip_id ++ "_" ++ pyShow r.stop_id ++ "_" ++ pyShow r.feed_timestamp

/-- `DataQualityValidator.deduplicate_vehicle_positions` (data_quality.py,
lines 82-103): the loop over `records`, threading the instance state;
a record whose key is already in `seen_vehicles` is dropped and counted,
otherwise its key is added and the record kept in order. -/
def deduplicate_vehicle_positions (s : ValidatorState) :
    List VehicleRecord → ValidatorState × List VehicleRecord
  | [] => (s, [])
  | r :: rs =>
    if vehicleKey r ∈ s.seen_vehicles then
      deduplicate_vehicle_positions
        { s with stats := { s.stats with
            vehicles_duplicate := s.stats.vehicles_duplicate + 1 } } rs
    else
      let s1 : ValidatorState :=
        { s with seen_vehicles := vehicleKey r :: s.seen_vehicles }
      let rest := deduplicate_vehicle_positions s1 rs
      (rest.1, r :: rest.2)

/-- `DataQualityValidator.deduplicate_trip_updates` (data_quality.py,
lines 105-126). -/
def deduplicate_trip_updates (s : ValidatorState) :
    List TripRecord → ValidatorState × List TripRecord
  | [] => (s, [])
  | r :: rs =>
    if tripKey r ∈ s.seen_trip_updates then
      deduplicate_trip_updates
        { s with stats := { s.stats with
            trip_updates_duplicate := s.stats.trip_updates_duplicate + 1 } } rs
    else
      let s1 : ValidatorState :=
        { s with seen_trip_updates := tripKey r :: s.seen_trip_updates }
      let rest := deduplicate_trip_updates s1 rs
      (rest.1, r :: rest.2)

/-- The validation loop of `validate_and_clean_vehicles` (data_quality.py,
lines 138-147): bump `vehicles_processed` per record, keep the record and
bump `vehicles_valid` when it validates, else bump `vehicles_invalid`. -/
def validateVehiclesLoop (s : ValidatorState) :
    List VehicleRecord → ValidatorState × List VehicleRecord
  | [] => (s, [])
  | r :: rs =>
    let sp : ValidatorState :=
      { s with stats := { s.stats with
          vehicles_processed := s.stats.vehicles_processed + 1 } }
    if validate_vehicle_position r then
      let sv : ValidatorState :=
        { sp with stats := { sp.stats with
            vehicles_valid := sp.stats.vehicles_valid + 1 } }
      let rest := validateVehiclesLoop sv rs
      (rest.1, r :: rest.2)
    else
      validateVehiclesLoop
        { sp with stats := { sp.stats with
            vehicles_invalid := sp.stats.vehicles_invalid + 1 } } rs

/-- The validation loop of `validate_and_clean_trip_updates`
(data_quality.py, lines 164-173). -/
def validateTripsLoop (s : ValidatorState) :
    List TripRecord → ValidatorState × List TripRecord
  | [] => (s, [])
  | r :: rs =>
    let sp : ValidatorState :=
      { s with stats := { s.stats with
          trip_updates_processed := s.stats.trip_updates_processed + 1 } }
    if validate_trip_update r then
      let sv : ValidatorState :=
        { sp with stats := { sp.stats with
            trip_updates_valid := sp.stats.trip_updates_valid + 1 } }
      let rest := validateTripsLoop sv rs
      (rest.1, r :: rest.2)
    else
      validateTripsLoop
        { sp with stats := { sp.stats with
            trip_updates_invalid := sp.stats.trip_updates_invalid + 1 } } rs

/-- `DataQualityValidator.validate_and_clean_vehicles` (data_quality.py,
lines 128-152): validate every record, then deduplicate the valid ones. -/
def validate_and_clean_vehicles (s : ValidatorState)
    (records : List VehicleRecord) : ValidatorState × List VehicleRecord :=
  let v := validateVehiclesLoop s records
  deduplicate_vehicle_positions v.1 v.2

/-- `DataQualityValidator.validate_and_clean_trip_updates`
(data_quality.py, lines 154-178). -/
def validate_and_clean_trip_updates (s : ValidatorState)
    (records : List TripRecord) : ValidatorState × List TripRecord :=
  let v := validateTripsLoop s records
  deduplicate_trip_updates v.1 v.2

/-- `DataQualityValidator.reset_stats` (data_quality.py, lines 184-186):
every counter back to zero, dedup caches untouched. -/
def reset_stats (s : ValidatorState) : ValidatorState :=
  { s with stats := initialState.stats }

/-! ## GTFS-RT parser (`gtfs_rt_parser.py`)

The protobuf message shapes read by the parser, restricted to the fields
it accesses.  A `HasField` check is an `Option` being `some`; a plain
proto string field (such as `trip.trip_id`) reads as a `String`. -/

/-- The fields of a protobuf `TripDescriptor` read by the parser. -/
structure TripDescriptor where
  trip_id : String
  route_id : String
deriving DecidableEq, Repr

/-- The fields of a protobuf `VehicleDescriptor` read by the parser. -/
structure VehicleDescriptor where
  id : String
deriving DecidableEq, Repr

/-- The fields of a protobuf `Position` read by the parser. -/
structure ProtoPosition where
  latitude : ℚ
  longitude : ℚ
  bearing : Option ℚ
  speed : Option ℚ
deriving DecidableEq, Repr

/-- The fields of a protobuf `VehiclePosition` sub-message read by the
parser (`entity.vehicle`). -/
structure ProtoVehicle where
  vehicle : Option VehicleDescriptor
  trip : Option TripDescriptor
  position : Option ProtoPosition
  timestamp : Option Int
  current_stop_sequence : Option Nat
  current_status : Option Nat
  congestion_level : Option Nat
deriving DecidableEq, Repr

/-- The fields of a protobuf `StopTimeEvent` read by the parser. -/
structure StopTimeEvent where
  delay : Option Int
  time : Option Int
deriving DecidableEq, Repr

/-- The fields of a protobuf `StopTimeUpdate` read by the parser. -/
structure StopTimeUpdate where
  stop_id : Option String
  stop_sequence : Option Nat
  arrival : Option StopTimeEvent
  departure : Option StopTimeEvent
  schedule_relationship : Option Nat
deriving DecidableEq, Repr

/-- The fields of a protobuf `TripUpdate` sub-message read by the parser
(`entity.trip_update`). -/
structure ProtoTripUpdate where
  trip : Option TripDescriptor
  vehicle : Option VehicleDescriptor
  stop_time_update : List StopTimeUpdate
deriving DecidableEq, Repr

/-- The fields of a protobuf `FeedHeader` read by the parser. -/
structure FeedHeader where
  timestamp : Option Int
deriving DecidableEq, Repr

/-- The fields of a protobuf `FeedEntity` read by the parser. -/
structure FeedEntity where
  vehicle : Option ProtoVehicle
  trip_update : Option ProtoTripUpdate
deriving DecidableEq, Repr

/-- A decoded protobuf `FeedMessage`. -/
structure FeedMessage where
  header : FeedHeader
  entity : List FeedEntity
deriving DecidableEq, Repr

/-- The ambient calls the parser makes into `datetime`:
`datetime.fromtimestamp(t).isoformat()` and `datetime.now().isoformat()`.
Both are parameters of the embedding. -/
structure ParserEnv where
  fromtimestamp : Int → String
  now : String

/-- The record dictionary built for one vehicle entity
(gtfs_rt_parser.py, lines 69-82). -/
def mkVehicleRecord (env : ParserEnv) (header : FeedHeader)
    (v : ProtoVehicle) : VehicleRecord :=
  { vehicle_id := v.vehicle.map VehicleDescriptor.id
    trip_id := v.trip.map TripDescriptor.trip_id
    route_id := v.trip.map TripDescriptor.route_id
    latitude := v.position.map ProtoPosition.latitude
    longitude := v.position.map ProtoPosition.longitude
    bearing := v.position.bind ProtoPosition.bearing
    speed := v.position.bind ProtoPosition.speed
    timestamp := some (match v.timestamp with
                       | some t => env.fromtimestamp t
                       | none => env.now)
    current_stop_sequence := v.current_stop_sequence
    current_status := v.current_status
    congestion_level := v.congestion_level
    feed_timestamp := some (match header.timestamp with
                            | some t => env.fromtimestamp t
                            | none => env.now) }

/-- `GTFSRealtimeParser.parse_vehicle_positions` (gtfs_rt_parser.py, lines
52-87) applied to an already decoded feed: one record per entity that
`HasField('vehicle')`, in feed order. -/
def parse_vehicle_positions (env : ParserEnv) (feed : FeedMessage) :
    List VehicleRecord :=
  feed.entity.filterMap fun e => e.vehicle.map (mkVehicleRecord env feed.header)

/-- The record dictionary built for one stop-time-update of a trip-update
entity (gtfs_rt_parser.py, lines 112-124); `trip_id`, `route_id` and
`vehicle_id` come from the parent `trip_update` (lines 106-108). -/
def mkTripRecord (env : ParserEnv) (header : FeedHeader)
    (tu : ProtoTripUpdate) (stu : StopTimeUpdate) : TripRecord :=
  { trip_id := tu.trip.map TripDescriptor.trip_id
    route_id := tu.trip.map TripDescriptor.route_id
    vehicle_id := tu.vehicle.map VehicleDescriptor.id
    stop_id := stu.stop_id
    stop_sequence := stu.stop_sequence
    arrival_delay := stu.arrival.bind StopTimeEvent.delay
    arrival_time := (stu.arrival.bind StopTimeEvent.time).map env.fromtimestamp
    departure_delay := stu.departure.bind StopTimeEvent.delay
    departure_time := (stu.departure.bind StopTimeEvent.time).map env.fromtimestamp
    schedule_relationship := stu.schedule_relationship
    feed_timestamp := some (match header.timestamp with
                            | some t => env.fromtimestamp t
                            | none => env.now) }

/-- The list of records one feed entity contributes to the trip-updates
parse: none when the entity has no `trip_update`, otherwise one per
element of `stop_time_update` (the inner loop at gtfs_rt_parser.py,
line 111). -/
def entityTripRecords (env : ParserEnv) (header : FeedHeader)
    (e : FeedEntity) : List TripRecord :=
  match e.trip_update with
  | none => []
  | some tu => tu.stop_time_update.map (mkTripRecord env header tu)

/-- `GTFSRealtimeParser.parse_trip_updates` (gtfs_rt_parser.py, lines
89-129) applied to an already decoded feed: the concatenation, in feed
order, of each entity's stop-time-update records. -/
def parse_trip_updates (env : ParserEnv) (feed : FeedMessage) :
    List TripRecord :=
  (feed.entity.map (entityTripRecords env feed.header)).flatten

/-! ## S3 uploader (`s3_uploader.py`) -/

/-- A wall-clock timestamp as the uploader formats it (`datetime`
broken into calendar fields; `strftime` zero-pads each component). -/
structure PyDateTime where
  year : Nat
  month : Nat
  day : Nat
  hour : Nat
  minute : Nat
  second : Nat
deriving DecidableEq, Repr

/-- Zero-padding to two digits, as `strftime` `%m`/`%d`/`%H`/`%M`/`%S`. -/
def pad2 (n : Nat) : String :=
  if n < 10 then "0" ++ toString n else toString n

/-- Zero-padding to four digits, as `strftime` `%Y`. -/
def pad4 (n : Nat) : String :=
  if n < 10 then "000" ++ toString n
  else if n < 100 then "00" ++ toString n
  else if n < 1000 then "0" ++ toString n
  else toString n

/-- `timestamp.strftime` of the pattern at s3_uploader.py line 48. -/
def dateStr (t : PyDateTime) : String :=
  pad4 t.year ++ pad2 t.month ++ pad2 t.day

/-- `timestamp.strftime` of the pattern at s3_uploader.py line 49. -/
def timeStr (t : PyDateTime) : String :=
  dateStr t ++ "_" ++ pad2 t.hour ++ pad2 t.minute ++ pad2 t.second

/-- `S3Uploader.generate_s3_key` (s3_uploader.py, lines 34-51) with the
timestamp supplied (the pipeline always passes one; the `None` default
merely substitutes the current time). -/
def generate_s3_key (data_type : String) (t : PyDateTime) : String :=
  "transit/" ++ data_type ++ "/" ++ dateStr t ++ "/" ++ timeStr t ++ ".json"

/-- `S3Uploader.upload_json` (s3_uploader.py, lines 53-88).  `putOk`
models whether `put_object` succeeds or raises `ClientError`.  The result
is the returned key (`None` on empty input or on a put error) together
with the list of `(key, body)` objects actually written to the bucket
(the body is the serialized batch, modelled as the batch itself). -/
def upload_json {α : Type} (putOk : Bool) (data : List α)
    (data_type : String) (t : PyDateTime) :
    Option String × List (String × List α) :=
  if data.isEmpty then
    (none, [])
  else
    let s3_key := generate_s3_key data_type t
    if putOk then (some s3_key, [(s3_key, data)]) else (none, [])

/-! ## DynamoDB writer (`dynamodb_writer.py`) -/

/-- The slicing loop `for i in range(0, len(l), 25): l[i:i+25]` common to
both batch writers (dynamodb_writer.py, lines 126-127 and 165-166). -/
def chunks25 {α : Type} (l : List α) : List (List α) :=
  if l.isEmpty then []
  else l.take 25 :: chunks25 (l.drop 25)
termination_by l.length
decreasing_by
  simp only [List.isEmpty_eq_true] at *
  cases l with
  | nil => simp_all
  | cons a as => simp [Nat.lt_succ_iff, Nat.sub_le]

/-- `DynamoDBWriter.batch_write_vehicles` (dynamodb_writer.py, lines
111-148).  `itemOk` models whether the per-item body (float conversion,
item construction, `put_item`) succeeds or raises; a raising item is
logged and skipped, every success bumps `success_count`. -/
def batch_write_vehicles (itemOk : VehicleRecord → Bool)
    (vehicles : List VehicleRecord) : Nat :=
  (chunks25 vehicles).foldl
    (fun acc batch =>
      batch.foldl (fun c v => if itemOk v then c + 1 else c) acc) 0

/-- `DynamoDBWriter.batch_write_trip_updates` (dynamodb_writer.py, lines
150-187), under the same per-item fault model. -/
def batch_write_trip_updates (itemOk : TripRecord → Bool)
    (trip_updates : List TripRecord) : Nat :=
  (chunks25 trip_updates).foldl
    (fun acc batch =>
      batch.foldl (fun c u => if itemOk u then c + 1 else c) acc) 0

/-! ## Lambda handler (`lambda_handler.py`) -/

/-- The external effects the handler sequences, each able to raise: the
feed fetch/parse, the S3 upload of both batches, and the two DynamoDB
batch writes.  `ts` is the `datetime.now()` captured before the upload
step (line 50); `tsErr` the one taken inside the `except` block
(line 96). -/
structure HandlerEnv where
  parse : Except String (List VehicleRecord × List TripRecord)
  upload : List VehicleRecord → List TripRecord →
    Except String (Option String × Option String)
  writeVehicles : List VehicleRecord → Except String Nat
  writeTrips : List TripRecord → Except String Nat
  ts : String
  tsErr : String

/-- The JSON body of the handler's response: either the success shape of
lambda_handler.py lines 67-83 or the failure shape of lines 94-97. -/
inductive HandlerBody where
  | success (timestamp : String)
      (parsed_vehicles parsed_trip_updates : Nat)
      (cleaned_vehicles cleaned_trip_updates : Nat)
      (validation_stats : QualityStats)
      (s3_keys : Option String × Option String)
      (dynamodb_written : Nat × Nat)
  | failure (error : String) (timestamp : String)
deriving DecidableEq, Repr

/-- `handler` (lambda_handler.py, lines 13-98): parse both feeds, clean
them through a fresh `DataQualityValidator`, upload to S3, write to
DynamoDB, and report; any raising step lands in the `except` branch,
which returns status 500 with the error and a timestamp. -/
def handler (env : HandlerEnv) : Nat × HandlerBody :=
  match env.parse with
  | .error e => (500, .failure e env.tsErr)
  | .ok (vehicles, trip_updates) =>
    let r1 := validate_and_clean_vehicles initialState vehicles
    let r2 := validate_and_clean_trip_updates r1.1 trip_updates
    match env.upload r1.2 r2.2 with
    | .error e => (500, .failure e env.tsErr)
    | .ok s3_keys =>
      match env.writeVehicles r1.2 with
      | .error e => (500, .failure e env.tsErr)
      | .ok vehicles_written =>
        match env.writeTrips r2.2 with
        | .error e => (500, .failure e env.tsErr)
        | .ok trip_updates_written =>
          (200, .success env.ts vehicles.length trip_updates.length
            r1.2.length r2.2.length r2.1.stats s3_keys
            (vehicles_written, trip_updates_written))

/-! ## Helper lemmas about the validator loops -/

/-- Abbreviation for the stats bookkeeping the vehicle validation loop
performs. -/
def addVehicleStats (s : ValidatorState) (p v i : Nat) : ValidatorState :=
  { s with stats := { s.stats with
      vehicles_processed := s.stats.vehicles_processed + p
      vehicles_valid := s.stats.vehicles_valid + v
      vehicles_invalid := s.stats.vehicles_invalid + i } }

/-- Abbreviation for the stats bookkeeping the trip-update validation loop
performs. -/
def addTripStats (s : ValidatorState) (p v i : Nat) : ValidatorState :=
  { s with stats := { s.stats with
      trip_updates_processed := s.stats.trip_updates_processed + p
      trip_updates_valid := s.stats.trip_updates_valid + v
      trip_updates_invalid := s.stats.trip_updates_invalid + i } }

theorem validateVehiclesLoop_spec (L : List VehicleRecord) (s : ValidatorState) :
    validateVehiclesLoop s L =
      (addVehicleStats s L.length (L.countP validate_vehicle_position)
        (L.countP fun r => !validate_vehicle_position r),
       L.filter validate_vehicle_position) := by
  induction L generalizing s with
  | nil => simp [validateVehiclesLoop, addVehicleStats]
  | cons r rs ih =>
    by_cases h : validate_vehicle_position r <;>
      simp [validateVehiclesLoop, h, ih, addVehicleStats, List.countP_cons,
        List.filter_cons, Nat.add_assoc, Nat.add_comm, Nat.add_left_comm]

theorem validateTripsLoop_spec (L : List TripRecord) (s : ValidatorState) :
    validateTripsLoop s L =
      (addTripStats s L.length (L.countP validate_trip_update)
        (L.countP fun r => !validate_trip_update r),
       L.filter validate_trip_update) := by
  induction L generalizing s with
  | nil => simp [validateTripsLoop, addTripStats]
  | cons r rs ih =>
    by_cases h : validate_trip_update r <;>
      simp [validateTripsLoop, h, ih, addTripStats, List.countP_cons,
        List.filter_cons, Nat.add_assoc, Nat.add_comm, Nat.add_left_comm]

/-! ## Helper lemmas about the dedup loops -/

theorem dedupV_seen_mono (L : List VehicleRecord) (s : ValidatorState)
    (k : String) (hk : k ∈ s.seen_vehicles) :
    k ∈ (deduplicate_vehicle_positions s L).1.seen_vehicles := by
  induction L generalizing s with
  | nil => simpa [deduplicate_vehicle_positions]
  | cons r rs ih =>
    by_cases h : vehicleKey r ∈ s.seen_vehicles <;>
      simp only [deduplicate_vehicle_positions, h, if_pos, if_neg,
        not_false_iff, ite_true, ite_false] <;>
      exact ih _ (by simp [hk])

theorem dedupV_key_mem (L : List VehicleRecord) (s : ValidatorState)
    (r : VehicleRecord) (hr : r ∈ L) :
    vehicleKey r ∈ (deduplicate_vehicle_positions s L).1.seen_vehicles := by
  induction L generalizing s with
  | nil => cases hr
  | cons a rs ih =>
    rcases List.mem_cons.mp hr with h | h
    · subst h
      by_cases hm : vehicleKey r ∈ s.seen_vehicles <;>
        simp only [deduplicate_vehicle_positions, hm, ite_true, ite_false] <;>
        exact dedupV_seen_mono _ _ _ (by simp [hm])
    · by_cases hm : vehicleKey a ∈ s.seen_vehicles <;>
        simp only [deduplicate_vehicle_positions, hm, ite_true, ite_false] <;>
        exact ih _ h

theorem dedupV_all_seen (L : List VehicleRecord) (s : ValidatorState)
    (h : ∀ r ∈ L, vehicleKey r ∈ s.seen_vehicles) :
    deduplicate_vehicle_positions s L =
      ({ s with stats := { s.stats with
          vehicles_duplicate := s.stats.vehicles_duplicate + L.length } },
        []) := by
  induction L generalizing s with
  | nil => simp [deduplicate_vehicle_positions]
  | cons r rs ih =>
    have hr : vehicleKey r ∈ s.seen_vehicles := h r (by simp)
    simp only [deduplicate_vehicle_positions, hr, ite_true]
    have step := ih
      { s with stats := { s.stats with
          vehicles_duplicate := s.stats.vehicles_duplicate + 1 } }
      (fun x hx => h x (List.mem_cons_of_mem _ hx))
    rw [step]
    have harith : s.stats.vehicles_duplicate + 1 + rs.length
        = s.stats.vehicles_duplicate + (r :: rs).length := by
      simp only [List.length_cons]
      omega
    simp [harith]

theorem dedupV_counts (L : List VehicleRecord) (s : ValidatorState) :
    (deduplicate_vehicle_positions s L).1.stats.vehicles_duplicate
        + (deduplicate_vehicle_positions s L).2.length
      = s.stats.vehicles_duplicate + L.length := by
  induction L generalizing s with
  | nil => simp [deduplicate_vehicle_positions]
  | cons r rs ih =>
    by_cases h : vehicleKey r ∈ s.seen_vehicles
    · simp only [deduplicate_vehicle_positions, h, ite_true, List.length_cons]
      have step := ih
        { s with stats := { s.stats with
            vehicles_duplicate := s.stats.vehicles_duplicate + 1 } }
      simp at step
      omega
    · simp only [deduplicate_vehicle_positions, h, ite_false, List.length_cons]
      have step := ih
        { s with seen_vehicles := vehicleKey r :: s.seen_vehicles }
      simp at step
      omega

theorem dedupV_frame (L : List VehicleRecord) (s : ValidatorState) :
    (deduplicate_vehicle_positions s L).1.seen_trip_updates = s.seen_trip_updates ∧
    (deduplicate_vehicle_positions s L).1.stats.vehicles_processed = s.stats.vehicles_processed ∧
    (deduplicate_vehicle_positions s L).1.stats.vehicles_valid = s.stats.vehicles_valid ∧
    (deduplicate_vehicle_positions s L).1.stats.vehicles_invalid = s.stats.vehicles_invalid ∧
    (deduplicate_vehicle_positions s L).1.stats.trip_updates_processed = s.stats.trip_updates_processed ∧
    (deduplicate_vehicle_positions s L).1.stats.trip_updates_valid = s.stats.trip_updates_valid ∧
    (deduplicate_vehicle_positions s L).1.stats.trip_updates_invalid = s.stats.trip_updates_invalid ∧
    (deduplicate_vehicle_positions s L).1.stats.trip_updates_duplicate = s.stats.trip_updates_duplicate := by
  induction L generalizing s with
  | nil => simp [deduplicate_vehicle_positions]
  | cons r rs ih =>
    by_cases h : vehicleKey r ∈ s.seen_vehicles <;>
      simp only [deduplicate_vehicle_positions, h, ite_true, ite_false] <;>
      simpa using ih _

theorem dedupV_dup_mono (L : List VehicleRecord) (s : ValidatorState) :
    s.stats.vehicles_duplicate
      ≤ (deduplicate_vehicle_positions s L).1.stats.vehicles_duplicate := by
  induction L generalizing s with
  | nil => simp [deduplicate_vehicle_positions]
  | cons r rs ih =>
    by_cases h : vehicleKey r ∈ s.seen_vehicles <;>
      simp only [deduplicate_vehicle_positions, h, ite_true, ite_false] <;>
      exact le_trans (by simp) (ih _)

theorem dedupV_mem_out (L : List VehicleRecord) (s : ValidatorState)
    (r : VehicleRecord) (h : r ∈ (deduplicate_vehicle_positions s L).2) :
    r ∈ L := by
  induction L generalizing s with
  | nil => simp [deduplicate_vehicle_positions] at h
  | cons a rs ih =>
    by_cases hm : vehicleKey a ∈ s.seen_vehicles
    · simp only [deduplicate_vehicle_positions, hm, ite_true] at h
      exact List.mem_cons_of_mem _ (ih _ h)
    · simp only [deduplicate_vehicle_positions, hm, ite_false] at h
      rcases List.mem_cons.mp h with h1 | h1
      · simp [h1]
      · exact List.mem_cons_of_mem _ (ih _ h1)

theorem dedupV_seen_from (L : List VehicleRecord) (s : ValidatorState)
    (k : String) (h : k ∈ (deduplicate_vehicle_positions s L).1.seen_vehicles) :
    k ∈ s.seen_vehicles ∨ ∃ r ∈ L, vehicleKey r = k := by
  induction L generalizing s with
  | nil => simp [deduplicate_vehicle_positions] at h; exact Or.inl h
  | cons a rs ih =>
    by_cases hm : vehicleKey a ∈ s.seen_vehicles
    · simp only [deduplicate_vehicle_positions, hm, ite_true] at h
      rcases ih _ h with h1 | ⟨r, hr, hk⟩
      · exact Or.inl h1
      · exact Or.inr ⟨r, by simp [hr], hk⟩
    · simp only [deduplicate_vehicle_positions, hm, ite_false] at h
      rcases ih _ h with h1 | ⟨r, hr, hk⟩
      · rcases List.mem_cons.mp h1 with h2 | h2
        · exact Or.inr ⟨a, by simp, h2.symm⟩
        · exact Or.inl h2
      · exact Or.inr ⟨r, by simp [hr], hk⟩

theorem dedupT_seen_mono (L : List TripRecord) (s : ValidatorState)
    (k : String) (hk : k ∈ s.seen_trip_updates) :
    k ∈ (deduplicate_trip_updates s L).1.seen_trip_updates := by
  induction L generalizing s with
  | nil => simpa [deduplicate_trip_updates]
  | cons r rs ih =>
    by_cases h : tripKey r ∈ s.seen_trip_updates <;>
      simp only [deduplicate_trip_updates, h, if_pos, if_neg,
        not_false_iff, ite_true, ite_false] <;>
      exact ih _ (by simp [hk])

theorem dedupT_key_mem (L : List TripRecord) (s : ValidatorState)
    (r : TripRecord) (hr : r ∈ L) :
    tripKey r ∈ (deduplicate_trip_updates s L).1.seen_trip_updates := by
  induction L generalizing s with
  | nil => cases hr
  | cons a rs ih =>
    rcases List.mem_cons.mp hr with h | h
    · subst h
      by_cases hm : tripKey r ∈ s.seen_trip_updates <;>
        simp only [deduplicate_trip_updates, hm, ite_true, ite_false] <;>
        exact dedupT_seen_mono _ _ _ (by simp [hm])
    · by_cases hm : tripKey a ∈ s.seen_trip_updates <;>
        simp only [deduplicate_trip_updates, hm, ite_true, ite_false] <;>
        exact ih _ h

theorem dedupT_all_seen (L : List TripRecord) (s : ValidatorState)
    (h : ∀ r ∈ L, tripKey r ∈ s.seen_trip_updates) :
    deduplicate_trip_updates s L =
      ({ s with stats := { s.stats with
          trip_updates_duplicate := s.stats.trip_updates_duplicate + L.length } },
        []) := by
  induction L generalizing s with
  | nil => simp [deduplicate_trip_updates]
  | cons r rs ih =>
    have hr : tripKey r ∈ s.seen_trip_updates := h r (by simp)
    simp only [deduplicate_trip_updates, hr, ite_true]
    have step := ih
      { s with stats := { s.stats with
          trip_updates_duplicate := s.stats.trip_updates_duplicate + 1 } }
      (fun x hx => h x (List.mem_cons_of_mem _ hx))
    rw [step]
    have harith : s.stats.trip_updates_duplicate + 1 + rs.length
        = s.stats.trip_updates_duplicate + (r :: rs).length := by
      simp only [List.length_cons]
      omega
    simp [harith]

theorem dedupT_counts (L : List TripRecord) (s : ValidatorState) :
    (deduplicate_trip_updates s L).1.stats.trip_updates_duplicate
        + (deduplicate_trip_updates s L).2.length
      = s.stats.trip_updates_duplicate + L.length := by
  induction L generalizing s with
  | nil => simp [deduplicate_trip_updates]
  | cons r rs ih =>
    by_cases h : tripKey r ∈ s.seen_trip_updates
    · simp only [deduplicate_trip_updates, h, ite_true, List.length_cons]
      have step := ih
        { s with stats := { s.stats with
            trip_updates_duplicate := s.stats.trip_updates_duplicate + 1 } }
      simp at step
      omega
    · simp only [deduplicate_trip_updates, h, ite_false, List.length_cons]
      have step := ih
        { s with seen_trip_updates := tripKey r :: s.seen_trip_updates }
      simp at step
      omega

theorem dedupT_frame (L : List TripRecord) (s : ValidatorState) :
    (deduplicate_trip_updates s L).1.seen_vehicles = s.seen_vehicles ∧
    (deduplicate_trip_updates s L).1.stats.vehicles_processed = s.stats.vehicles_processed ∧
    (deduplicate_trip_updates s L).1.stats.vehicles_valid = s.stats.vehicles_valid ∧
    (deduplicate_trip_updates s L).1.stats.vehicles_invalid = s.stats.vehicles_invalid ∧
    (deduplicate_trip_updates s L).1.stats.vehicles_duplicate = s.stats.vehicles_duplicate ∧
    (deduplicate_trip_updates s L).1.stats.trip_updates_processed = s.stats.trip_updates_processed ∧
    (deduplicate_trip_updates s L).1.stats.trip_updates_valid = s.stats.trip_updates_valid ∧
    (deduplicate_trip_updates s L).1.stats.trip_updates_invalid = s.stats.trip_updates_invalid := by
  induction L generalizing s with
  | nil => simp [deduplicate_trip_updates]
  | cons r rs ih =>
    by_cases h : tripKey r ∈ s.seen_trip_updates <;>
      simp only [deduplicate_trip_updates, h, ite_true, ite_false] <;>
      simpa using ih _

theorem dedupT_dup_mono (L : List TripRecord) (s : ValidatorState) :
    s.stats.trip_updates_duplicate
      ≤ (deduplicate_trip_updates s L).1.stats.trip_updates_duplicate := by
  induction L generalizing s with
  | nil => simp [deduplicate_trip_updates]
  | cons r rs ih =>
    by_cases h : tripKey r ∈ s.seen_trip_updates <;>
      simp only [deduplicate_trip_updates, h, ite_true, ite_false] <;>
      exact le_trans (by simp) (ih _)

theorem dedupT_mem_out (L : List TripRecord) (s : ValidatorState)
    (r : TripRecord) (h : r ∈ (deduplicate_trip_updates s L).2) :
    r ∈ L := by
  induction L generalizing s with
  | nil => simp [deduplicate_trip_updates] at h
  | cons a rs ih =>
    by_cases hm : tripKey a ∈ s.seen_trip_updates
    · simp only [deduplicate_trip_updates, hm, ite_true] at h
      exact List.mem_cons_of_mem _ (ih _ h)
    · simp only [deduplicate_trip_updates, hm, ite_false] at h
      rcases List.mem_cons.mp h with h1 | h1
      · simp [h1]
      · exact List.mem_cons_of_mem _ (ih _ h1)

theorem dedupT_seen_from (L : List TripRecord) (s : ValidatorState)
    (k : String) (h : k ∈ (deduplicate_trip_updates s L).1.seen_trip_updates) :
    k ∈ s.seen_trip_updates ∨ ∃ r ∈ L, tripKey r = k := by
  induction L generalizing s with
  | nil => simp [deduplicate_trip_updates] at h; exact Or.inl h
  | cons a rs ih =>
    by_cases hm : tripKey a ∈ s.seen_trip_updates
    · simp only [deduplicate_trip_updates, hm, ite_true] at h
      rcases ih _ h with h1 | ⟨r, hr, hk⟩
      · exact Or.inl h1
      · exact Or.inr ⟨r, by simp [hr], hk⟩
    · simp only [deduplicate_trip_updates, hm, ite_false] at h
      rcases ih _ h with h1 | ⟨r, hr, hk⟩
      · rcases List.mem_cons.mp h1 with h2 | h2
        · exact Or.inr ⟨a, by simp, h2.symm⟩
        · exact Or.inl h2
      · exact Or.inr ⟨r, by simp [hr], hk⟩

/-- Characterization of `validate_vehicle_position`: it accepts exactly the
records with non-null required fields, latitude in [-90, 90], longitude in
[-180, 180], and non-negative speed when speed is present. -/
theorem validate_vehicle_position_iff (r : VehicleRecord) :
    validate_vehicle_position r = true ↔
      (r.vehicle_id.isSome = true ∧ r.latitude.isSome = true ∧
       r.longitude.isSome = true ∧ r.timestamp.isSome = true ∧
       (∀ lat : ℚ, r.latitude = some lat → -90 ≤ lat ∧ lat ≤ 90) ∧
       (∀ lon : ℚ, r.longitude = some lon → -180 ≤ lon ∧ lon ≤ 180) ∧
       (∀ sp : ℚ, r.speed = some sp → 0 ≤ sp)) := by
  rcases r with ⟨vid, tid, rid, lat, lon, br, sp, ts, css, cs, cl, ft⟩
  cases vid <;> cases lat <;> cases lon <;> cases ts <;> cases sp <;>
    simp [validate_vehicle_position, not_or, not_lt]

/-- C1: every record surviving `validate_and_clean_vehicles` has non-null
`vehicle_id`, `latitude`, `longitude`, `timestamp`, latitude in [-90, 90],
longitude in [-180, 180], and non-negative speed when present; and a
record satisfying those conditions — whatever its optional fields
(`bearing`, `speed`, `current_stop_sequence`, `current_status`,
`congestion_level`, `trip_id`, `route_id`) — is never rejected by
validation. -/
theorem C1_clean_vehicle_records (s : ValidatorState) (L : List VehicleRecord) :
    (∀ r ∈ (validate_and_clean_vehicles s L).2,
       r.vehicle_id.isSome = true ∧ r.latitude.isSome = true ∧
       r.longitude.isSome = true ∧ r.timestamp.isSome = true ∧
       (∀ lat : ℚ, r.latitude = some lat → -90 ≤ lat ∧ lat ≤ 90) ∧
       (∀ lon : ℚ, r.longitude = some lon → -180 ≤ lon ∧ lon ≤ 180) ∧
       (∀ sp : ℚ, r.speed = some sp → 0 ≤ sp)) ∧
    (∀ r : VehicleRecord,
       r.vehicle_id.isSome = true → r.latitude.isSome = true →
       r.longitude.isSome = true → r.timestamp.isSome = true →
       (∀ lat : ℚ, r.latitude = some lat → -90 ≤ lat ∧ lat ≤ 90) →
       (∀ lon : ℚ, r.longitude = some lon → -180 ≤ lon ∧ lon ≤ 180) →
       (∀ sp : ℚ, r.speed = some sp → 0 ≤ sp) →
       validate_vehicle_position r = true) := by
  constructor
  · intro r hr
    unfold validate_and_clean_vehicles at hr
    rw [validateVehiclesLoop_spec] at hr
    have hf : r ∈ L.filter validate_vehicle_position := dedupV_mem_out _ _ r hr
    have hv : validate_vehicle_position r = true := (List.mem_filter.mp hf).2
    exact (validate_vehicle_position_iff r).mp hv
  · intro r h1 h2 h3 h4 h5 h6 h7
    exact (validate_vehicle_position_iff r).mpr ⟨h1, h2, h3, h4, h5, h6, h7⟩

/-- A concrete well-formed vehicle record with every optional field
absent. -/
def vr0 : VehicleRecord :=
  { vehicle_id := some "1", trip_id := none, route_id := none
    latitude := some 53, longitude := some (-113)
    bearing := none, speed := none
    timestamp := some "2024-01-01T10:00:00"
    current_stop_sequence := none, current_status := none
    congestion_level := none, feed_timestamp := none }

/-- Witness for C1 at the concrete record `vr0` and list `[vr0]`. -/
theorem C1_witness :
    vr0 ∈ (validate_and_clean_vehicles initialState [vr0]).2 ∧
    vr0.latitude.isSome = true ∧
    validate_vehicle_position vr0 = true := by
  have h := C1_clean_vehicle_records initialState [vr0]
  have hmem : vr0 ∈ (validate_and_clean_vehicles initialState [vr0]).2 := by
    decide
  refine ⟨hmem, (h.1 vr0 hmem).2.1, ?_⟩
  refine h.2 vr0 rfl rfl rfl rfl ?_ ?_ ?_
  · intro lat hl
    simp only [vr0, Option.some.injEq] at hl
    subst hl
    exact ⟨by norm_num, by norm_num⟩
  · intro lon hl
    simp only [vr0, Option.some.injEq] at hl
    subst hl
    exact ⟨by norm_num, by norm_num⟩
  · intro sp hl
    simp [vr0] at hl

/-- C2: feeding the same record list twice through one validator instance
yields an empty list the second time, and the second call bumps the
duplicate counter by exactly the number of records that pass validation —
for vehicle positions and, analogously, for trip updates. -/
theorem C2_dedup_idempotent (s : ValidatorState) (LV : List VehicleRecord)
    (LT : List TripRecord) :
    ((validate_and_clean_vehicles (validate_and_clean_vehicles s LV).1 LV).2 = [] ∧
     (validate_and_clean_vehicles (validate_and_clean_vehicles s LV).1 LV).1.stats.vehicles_duplicate
       = (validate_and_clean_vehicles s LV).1.stats.vehicles_duplicate
         + LV.countP validate_vehicle_position) ∧
    ((validate_and_clean_trip_updates (validate_and_clean_trip_updates s LT).1 LT).2 = [] ∧
     (validate_and_clean_trip_updates (validate_and_clean_trip_updates s LT).1 LT).1.stats.trip_updates_duplicate
       = (validate_and_clean_trip_updates s LT).1.stats.trip_updates_duplicate
         + LT.countP validate_trip_update) := by
  set s1 := (validate_and_clean_vehicles s LV).1 with hs1
  set t1 := (validate_and_clean_trip_updates s LT).1 with ht1
  have hVkeys : ∀ r ∈ LV.filter validate_vehicle_position,
      vehicleKey r ∈ s1.seen_vehicles := by
    intro r hr
    rw [hs1]
    unfold validate_and_clean_vehicles
    rw [validateVehiclesLoop_spec]
    exact dedupV_key_mem _ _ r hr
  have hTkeys : ∀ r ∈ LT.filter validate_trip_update,
      tripKey r ∈ t1.seen_trip_updates := by
    intro r hr
    rw [ht1]
    unfold validate_and_clean_trip_updates
    rw [validateTripsLoop_spec]
    exact dedupT_key_mem _ _ r hr
  have hallV := dedupV_all_seen (LV.filter validate_vehicle_position)
      (addVehicleStats s1 LV.length (LV.countP validate_vehicle_position)
        (LV.countP fun r => !validate_vehicle_position r))
      (by
        intro r hr
        simpa [addVehicleStats] using hVkeys r hr)
  have hallT := dedupT_all_seen (LT.filter validate_trip_update)
      (addTripStats t1 LT.length (LT.countP validate_trip_update)
        (LT.countP fun r => !validate_trip_update r))
      (by
        intro r hr
        simpa [addTripStats] using hTkeys r hr)
  refine ⟨⟨?_, ?_⟩, ?_, ?_⟩
  · simp only [validate_and_clean_vehicles, validateVehiclesLoop_spec, hallV]
  · simp only [validate_and_clean_vehicles, validateVehiclesLoop_spec, hallV]
    simp [addVehicleStats, ← List.countP_eq_length_filter]
  · simp only [validate_and_clean_trip_updates, validateTripsLoop_spec, hallT]
  · simp only [validate_and_clean_trip_updates, validateTripsLoop_spec, hallT]
    simp [addTripStats, ← List.countP_eq_length_filter]

/-- C3: a trip-update entity with N stop-time-updates contributes exactly
N records to the trip-updates parse, and all of them carry the parent
entity's `trip_id`, `route_id` and `vehicle_id`. -/
theorem C3_trip_update_fanout (env : ParserEnv) (feed : FeedMessage) :
    parse_trip_updates env feed
      = (feed.entity.map (entityTripRecords env feed.header)).flatten ∧
    ∀ e : FeedEntity, ∀ tu : ProtoTripUpdate, e.trip_update = some tu →
      (entityTripRecords env feed.header e).length
          = tu.stop_time_update.length ∧
      ∀ rec ∈ entityTripRecords env feed.header e,
        rec.trip_id = tu.trip.map TripDescriptor.trip_id ∧
        rec.route_id = tu.trip.map TripDescriptor.route_id ∧
        rec.vehicle_id = tu.vehicle.map VehicleDescriptor.id := by
  refine ⟨rfl, ?_⟩
  intro e tu htu
  constructor
  · simp [entityTripRecords, htu]
  · intro rec hrec
    simp only [entityTripRecords, htu, List.mem_map] at hrec
    obtain ⟨stu, _, hrec⟩ := hrec
    subst hrec
    exact ⟨rfl, rfl, rfl⟩

/-- A concrete parser environment: a recognizable rendering of epoch
timestamps, and a distinct current-time string. -/
def env0 : ParserEnv :=
  { fromtimestamp := fun t => "ts:" ++ toString t, now := "NOW" }

/-- A concrete stop-time-update. -/
def stu1 : StopTimeUpdate :=
  { stop_id := some "S1", stop_sequence := some 1
    arrival := some { delay := some 60, time := none }
    departure := none, schedule_relationship := none }

/-- A second concrete stop-time-update. -/
def stu2 : StopTimeUpdate :=
  { stop_id := some "S2", stop_sequence := some 2
    arrival := none, departure := none, schedule_relationship := none }

/-- A concrete trip-update sub-message with two stop-time-updates. -/
def tu0 : ProtoTripUpdate :=
  { trip := some { trip_id := "T1", route_id := "R1" }
    vehicle := some { id := "V1" }
    stop_time_update := [stu1, stu2] }

/-- A concrete trip-updates feed with one entity. -/
def feedT0 : FeedMessage :=
  { header := { timestamp := some 1000 }
    entity := [{ vehicle := none, trip_update := some tu0 }] }

/-- Witness for C3 at the concrete feed `feedT0`. -/
theorem C3_witness :
    (entityTripRecords env0 feedT0.header ⟨none, some tu0⟩).length
        = tu0.stop_time_update.length ∧
    (mkTripRecord env0 feedT0.header tu0 stu1).trip_id
        = tu0.trip.map TripDescriptor.trip_id := by
  have h := (C3_trip_update_fanout env0 feedT0).2 ⟨none, some tu0⟩ tu0 rfl
  refine ⟨h.1, ?_⟩
  exact (h.2 (mkTripRecord env0 feedT0.header tu0 stu1)
    (by simp [entityTripRecords, tu0])).1

/-- A concrete vehicle entity without a per-entity timestamp. -/
def pv0 : ProtoVehicle :=
  { vehicle := some { id := "V1" }, trip := none
    position := some { latitude := 53, longitude := -113
                       bearing := none, speed := none }
    timestamp := none, current_stop_sequence := none
    current_status := none, congestion_level := none }

/-- A concrete vehicle feed whose header carries a timestamp while its
single entity does not. -/
def feedV0 : FeedMessage :=
  { header := { timestamp := some 100 }
    entity := [{ vehicle := some pv0, trip_update := none }] }

/-- C4 counterexample: with the feed header timestamp present (100) and
the per-entity vehicle timestamp absent, the produced record's
`timestamp` is the current processing time, not the feed header
timestamp — so the claimed entity → header → now fallback order does not
hold in the code. -/
theorem C4_counterexample :
    (parse_vehicle_positions env0 feedV0).map VehicleRecord.timestamp
        = [some env0.now] ∧
    feedV0.header.timestamp = some 100 ∧
    pv0.timestamp = none ∧
    env0.now ≠ env0.fromtimestamp 100 := by
  refine ⟨rfl, rfl, rfl, ?_⟩
  decide

/-- C4 amended: the `timestamp` of each produced vehicle record is the
per-entity vehicle timestamp when present and otherwise the current
processing time; the feed header timestamp never feeds `timestamp` — it
is recorded separately as `feed_timestamp` (itself falling back to the
current processing time when absent). -/
theorem C4_amended_timestamp (env : ParserEnv) (feed : FeedMessage)
    (e : FeedEntity) (v : ProtoVehicle) (he : e ∈ feed.entity)
    (hv : e.vehicle = some v) :
    mkVehicleRecord env feed.header v ∈ parse_vehicle_positions env feed ∧
    (mkVehicleRecord env feed.header v).timestamp
      = some (match v.timestamp with
              | some t => env.fromtimestamp t
              | none => env.now) ∧
    (mkVehicleRecord env feed.header v).feed_timestamp
      = some (match feed.header.timestamp with
              | some t => env.fromtimestamp t
              | none => env.now) := by
  refine ⟨?_, rfl, rfl⟩
  unfold parse_vehicle_positions
  exact List.mem_filterMap.mpr ⟨e, he, by simp [hv]⟩

/-- Witness for the amended C4 at the concrete feed `feedV0`. -/
theorem C4_witness :
    (mkVehicleRecord env0 feedV0.header pv0).timestamp = some env0.now := by
  have h := C4_amended_timestamp env0 feedV0 ⟨some pv0, none⟩ pv0
    (by simp [feedV0]) rfl
  simpa using h.2.1

/-- The cleaned vehicle batch of one handler invocation (step 2 of the
handler, starting from a fresh validator). -/
def cleanedVehicles (V : List VehicleRecord) : List VehicleRecord :=
  (validate_and_clean_vehicles initialState V).2

/-- The validator state after the handler's vehicle-cleaning call. -/
def midState (V : List VehicleRecord) : ValidatorState :=
  (validate_and_clean_vehicles initialState V).1

/-- The cleaned trip-update batch of one handler invocation. -/
def cleanedTrips (V : List VehicleRecord) (T : List TripRecord) :
    List TripRecord :=
  (validate_and_clean_trip_updates (midState V) T).2

/-- The validation stats the handler reports. -/
def finalStats (V : List VehicleRecord) (T : List TripRecord) : QualityStats :=
  (validate_and_clean_trip_updates (midState V) T).1.stats

/-- C5: the handler never propagates a fault.  When any step raises, it
returns the well-formed failure report (status 500 with the error and a
timestamp); when no step raises, it returns the success report with
status 200, timestamp, parsed counts, cleaned counts, validation stats,
archive locations and store write counts. -/
theorem C5_handler_report (env : HandlerEnv) :
    (∃ e, handler env = (500, .failure e env.tsErr) ∧
       (env.parse = .error e ∨
        ∃ V T, env.parse = .ok (V, T) ∧
          (env.upload (cleanedVehicles V) (cleanedTrips V T) = .error e ∨
           env.writeVehicles (cleanedVehicles V) = .error e ∨
           env.writeTrips (cleanedTrips V T) = .error e))) ∨
    (∃ V T k nv nt,
       env.parse = .ok (V, T) ∧
       env.upload (cleanedVehicles V) (cleanedTrips V T) = .ok k ∧
       env.writeVehicles (cleanedVehicles V) = .ok nv ∧
       env.writeTrips (cleanedTrips V T) = .ok nt ∧
       handler env = (200, .success env.ts V.length T.length
         (cleanedVehicles V).length (cleanedTrips V T).length
         (finalStats V T) k (nv, nt))) := by
  cases hp : env.parse with
  | error e =>
    left
    exact ⟨e, by simp [handler, hp], Or.inl rfl⟩
  | ok pr =>
    obtain ⟨V, T⟩ := pr
    cases hu : env.upload (validate_and_clean_vehicles initialState V).2
        (validate_and_clean_trip_updates
          (validate_and_clean_vehicles initialState V).1 T).2 with
    | error e =>
      left
      exact ⟨e, by simp [handler, hp, hu],
        Or.inr ⟨V, T, rfl, Or.inl hu⟩⟩
    | ok k =>
      cases hw1 : env.writeVehicles
          (validate_and_clean_vehicles initialState V).2 with
      | error e =>
        left
        exact ⟨e, by simp [handler, hp, hu, hw1],
          Or.inr ⟨V, T, rfl, Or.inr (Or.inl hw1)⟩⟩
      | ok nv =>
        cases hw2 : env.writeTrips
            (validate_and_clean_trip_updates
              (validate_and_clean_vehicles initialState V).1 T).2 with
        | error e =>
          left
          exact ⟨e, by simp [handler, hp, hu, hw1, hw2],
            Or.inr ⟨V, T, rfl, Or.inr (Or.inr hw2)⟩⟩
        | ok nt =>
          right
          exact ⟨V, T, k, nv, nt, rfl, hu, hw1, hw2,
            by simp [handler, hp, hu, hw1, hw2, cleanedVehicles,
              cleanedTrips, midState, finalStats]⟩

/-- Flattening, count and size bound for the 25-item slicing loop. -/
theorem chunks25_spec {α : Type} (n : Nat) :
    ∀ l : List α, l.length ≤ n →
      (chunks25 l).flatten = l ∧
      (chunks25 l).length = (l.length + 24) / 25 ∧
      ∀ c ∈ chunks25 l, c.length ≤ 25 := by
  induction n with
  | zero =>
    intro l hl
    have hnil : l = [] := List.eq_nil_of_length_eq_zero (Nat.le_zero.mp hl)
    subst hnil
    refine ⟨?_, ?_, ?_⟩ <;> simp [chunks25]
  | succ n ih =>
    intro l hl
    by_cases hi : l.isEmpty
    · have hnil : l = [] := List.isEmpty_iff.mp hi
      subst hnil
      refine ⟨?_, ?_, ?_⟩ <;> simp [chunks25]
    · have hlen : 1 ≤ l.length := by
        cases l with
        | nil => simp at hi
        | cons a as => simp
      have hdrop : (l.drop 25).length ≤ n := by
        simp only [List.length_drop]
        omega
      obtain ⟨h1, h2, h3⟩ := ih (l.drop 25) hdrop
      have hch : chunks25 l = l.take 25 :: chunks25 (l.drop 25) := by
        rw [chunks25.eq_def]
        simp [hi]
      refine ⟨?_, ?_, ?_⟩
      · rw [hch]
        simp [h1]
      · rw [hch]
        simp only [List.length_cons, h2, List.length_drop]
        omega
      · rw [hch]
        intro c hc
        rcases List.mem_cons.mp hc with h | h
        · subst h
          simp only [List.length_take]
          omega
        · exact h3 c h

/-- The inner per-item counting loop of the batch writers. -/
theorem countFold {α : Type} (p : α → Bool) (l : List α) (a : Nat) :
    l.foldl (fun c v => if p v then c + 1 else c) a = a + l.countP p := by
  induction l generalizing a with
  | nil => simp
  | cons x xs ih =>
    by_cases h : p x <;> simp [h, ih, List.countP_cons]
    omega

/-- The outer per-chunk loop of the batch writers. -/
theorem batchFold {α : Type} (p : α → Bool) (bs : List (List α)) (a : Nat) :
    bs.foldl
        (fun acc batch => batch.foldl (fun c v => if p v then c + 1 else c) acc)
        a
      = a + bs.flatten.countP p := by
  induction bs generalizing a with
  | nil => simp
  | cons b bs ih =>
    rw [List.foldl_cons, countFold, ih, List.flatten_cons, List.countP_append]
    omega

/-- C6: `batch_write_vehicles` slices n records into ceil(n/25) batch
operations of at most 25 items each that together cover the whole list,
and a single item's failure costs only that item: the returned success
count is exactly the number of items whose write succeeds. -/
theorem C6_batch_chunking (itemOk : VehicleRecord → Bool)
    (L : List VehicleRecord) :
    (chunks25 L).length = (L.length + 24) / 25 ∧
    (∀ c ∈ chunks25 L, c.length ≤ 25) ∧
    (chunks25 L).flatten = L ∧
    batch_write_vehicles itemOk L = L.countP itemOk := by
  obtain ⟨h1, h2, h3⟩ := chunks25_spec L.length L (le_refl _)
  refine ⟨h2, h3, h1, ?_⟩
  unfold batch_write_vehicles
  rw [batchFold, h1]
  simp

/-- 57 distinct valid vehicle records. -/
def L57 : List VehicleRecord :=
  (List.range 57).map fun i => { vr0 with current_stop_sequence := some i }

/-- A per-item fault model that fails exactly one record of `L57`. -/
def failOn30 (r : VehicleRecord) : Bool :=
  decide (r.current_stop_sequence ≠ some 30)

/-- Witness for C6: 57 records make 3 batch operations, and a forced
single-item failure leaves the success count at 56. -/
theorem C6_witness :
    (chunks25 L57).length = 3 ∧ batch_write_vehicles failOn30 L57 = 56 := by
  have h := C6_batch_chunking failOn30 L57
  constructor
  · rw [h.1]
    norm_num [L57]
  · rw [h.2.2.2]
    decide

/-- C7: archiving an empty batch writes nothing and returns null; a
non-empty successful upload goes to the key determined by the data type
and timestamp alone — `transit/{kind}/{YYYYMMDD}/{YYYYMMDD_HHMMSS}.json`
— so two calls with identical kind and timestamp target one single key. -/
theorem C7_archive_key {α : Type} (putOk : Bool) (d : String)
    (t : PyDateTime) :
    upload_json (α := α) putOk [] d t = (none, []) ∧
    (∀ data : List α, data ≠ [] →
       upload_json true data d t
         = (some (generate_s3_key d t), [(generate_s3_key d t, data)])) ∧
    (∀ data1 data2 : List α, data1 ≠ [] → data2 ≠ [] →
       (upload_json true data1 d t).1 = (upload_json true data2 d t).1) ∧
    generate_s3_key d t
      = "transit/" ++ d ++ "/" ++ dateStr t ++ "/" ++ timeStr t ++ ".json" := by
  have hne : ∀ data : List α, data ≠ [] →
      upload_json true data d t
        = (some (generate_s3_key d t), [(generate_s3_key d t, data)]) := by
    intro data hd
    cases data with
    | nil => cases hd rfl
    | cons a l => simp [upload_json]
  refine ⟨by simp [upload_json], hne, ?_, rfl⟩
  intro d1 d2 h1 h2
  rw [hne d1 h1, hne d2 h2]

/-- The timestamp 2024-01-01 10:00:00 used for the C7 witness. -/
def t0 : PyDateTime :=
  { year := 2024, month := 1, day := 1, hour := 10, minute := 0, second := 0 }

/-- Witness for C7 at a concrete batch, kind and timestamp. -/
theorem C7_witness :
    upload_json true [vr0] "vehicles" t0
      = (some "transit/vehicles/20240101/20240101_100000.json",
         [("transit/vehicles/20240101/20240101_100000.json", [vr0])]) ∧
    upload_json true ([] : List VehicleRecord) "vehicles" t0 = (none, []) := by
  have h := C7_archive_key (α := VehicleRecord) true "vehicles" t0
  refine ⟨?_, h.1⟩
  rw [h.2.1 [vr0] (by simp)]
  have hk : generate_s3_key "vehicles" t0
      = "transit/vehicles/20240101/20240101_100000.json" := by decide
  rw [hk]

/-- The dedup pass depends only on the incoming `seen_vehicles` cache
(and, for the duplicate counter, on its incoming value). -/
theorem dedupV_congr (L : List VehicleRecord) (s s' : ValidatorState)
    (hseen : s.seen_vehicles = s'.seen_vehicles) :
    (deduplicate_vehicle_positions s L).1.seen_vehicles
        = (deduplicate_vehicle_positions s' L).1.seen_vehicles ∧
    (s.stats.vehicles_duplicate = s'.stats.vehicles_duplicate →
      (deduplicate_vehicle_positions s L).1.stats.vehicles_duplicate
        = (deduplicate_vehicle_positions s' L).1.stats.vehicles_duplicate) ∧
    (deduplicate_vehicle_positions s L).2
        = (deduplicate_vehicle_positions s' L).2 := by
  induction L generalizing s s' with
  | nil =>
    refine ⟨?_, ?_, ?_⟩ <;> simp [deduplicate_vehicle_positions, hseen]
  | cons r rs ih =>
    by_cases h : vehicleKey r ∈ s.seen_vehicles
    · have h' : vehicleKey r ∈ s'.seen_vehicles := by rw [← hseen]; exact h
      simp only [deduplicate_vehicle_positions, h, h', ite_true]
      obtain ⟨i1, i2, i3⟩ := ih
        { s with stats := { s.stats with
            vehicles_duplicate := s.stats.vehicles_duplicate + 1 } }
        { s' with stats := { s'.stats with
            vehicles_duplicate := s'.stats.vehicles_duplicate + 1 } }
        hseen
      exact ⟨i1, fun hd => i2 (by simp [hd]), i3⟩
    · have h' : vehicleKey r ∉ s'.seen_vehicles := by rw [← hseen]; exact h
      simp only [deduplicate_vehicle_positions, h, h', ite_false]
      obtain ⟨i1, i2, i3⟩ := ih
        { s with seen_vehicles := vehicleKey r :: s.seen_vehicles }
        { s' with seen_vehicles := vehicleKey r :: s'.seen_vehicles }
        (by simp [hseen])
      exact ⟨i1, fun hd => i2 (by simp [hd]), by rw [i3]⟩

/-- Trip-update analogue of `dedupV_congr`. -/
theorem dedupT_congr (L : List TripRecord) (s s' : ValidatorState)
    (hseen : s.seen_trip_updates = s'.seen_trip_updates) :
    (deduplicate_trip_updates s L).1.seen_trip_updates
        = (deduplicate_trip_updates s' L).1.seen_trip_updates ∧
    (s.stats.trip_updates_duplicate = s'.stats.trip_updates_duplicate →
      (deduplicate_trip_updates s L).1.stats.trip_updates_duplicate
        = (deduplicate_trip_updates s' L).1.stats.trip_updates_duplicate) ∧
    (deduplicate_trip_updates s L).2
        = (deduplicate_trip_updates s' L).2 := by
  induction L generalizing s s' with
  | nil =>
    refine ⟨?_, ?_, ?_⟩ <;> simp [deduplicate_trip_updates, hseen]
  | cons r rs ih =>
    by_cases h : tripKey r ∈ s.seen_trip_updates
    · have h' : tripKey r ∈ s'.seen_trip_updates := by rw [← hseen]; exact h
      simp only [deduplicate_trip_updates, h, h', ite_true]
      obtain ⟨i1, i2, i3⟩ := ih
        { s with stats := { s.stats with
            trip_updates_duplicate := s.stats.trip_updates_duplicate + 1 } }
        { s' with stats := { s'.stats with
            trip_updates_duplicate := s'.stats.trip_updates_duplicate + 1 } }
        hseen
      exact ⟨i1, fun hd => i2 (by simp [hd]), i3⟩
    · have h' : tripKey r ∉ s'.seen_trip_updates := by rw [← hseen]; exact h
      simp only [deduplicate_trip_updates, h, h', ite_false]
      obtain ⟨i1, i2, i3⟩ := ih
        { s with seen_trip_updates := tripKey r :: s.seen_trip_updates }
        { s' with seen_trip_updates := tripKey r :: s'.seen_trip_updates }
        (by simp [hseen])
      exact ⟨i1, fun hd => i2 (by simp [hd]), by rw [i3]⟩

/-- C8: the dedup cache and the duplicate counters are driven by the
valid records only.  Filtering the invalid records out of the input in
advance leaves the cache and the duplicate counter unchanged; the
duplicate counter grows by exactly the number of valid records dropped as
duplicates; and every key added to the cache is the key of some valid
input record.  Both record kinds. -/
theorem C8_validation_precedes_dedup (s : ValidatorState)
    (LV : List VehicleRecord) (LT : List TripRecord) :
    ((validate_and_clean_vehicles s LV).1.seen_vehicles
        = (validate_and_clean_vehicles s
            (LV.filter validate_vehicle_position)).1.seen_vehicles ∧
     (validate_and_clean_vehicles s LV).1.stats.vehicles_duplicate
        = (validate_and_clean_vehicles s
            (LV.filter validate_vehicle_position)).1.stats.vehicles_duplicate ∧
     (validate_and_clean_vehicles s LV).1.stats.vehicles_duplicate
         + (validate_and_clean_vehicles s LV).2.length
        = s.stats.vehicles_duplicate + LV.countP validate_vehicle_position ∧
     (∀ k ∈ (validate_and_clean_vehicles s LV).1.seen_vehicles,
        k ∈ s.seen_vehicles ∨
        ∃ r ∈ LV, validate_vehicle_position r = true ∧ vehicleKey r = k)) ∧
    ((validate_and_clean_trip_updates s LT).1.seen_trip_updates
        = (validate_and_clean_trip_updates s
            (LT.filter validate_trip_update)).1.seen_trip_updates ∧
     (validate_and_clean_trip_updates s LT).1.stats.trip_updates_duplicate
        = (validate_and_clean_trip_updates s
            (LT.filter validate_trip_update)).1.stats.trip_updates_duplicate ∧
     (validate_and_clean_trip_updates s LT).1.stats.trip_updates_duplicate
         + (validate_and_clean_trip_updates s LT).2.length
        = s.stats.trip_updates_duplicate + LT.countP validate_trip_update ∧
     (∀ k ∈ (validate_and_clean_trip_updates s LT).1.seen_trip_updates,
        k ∈ s.seen_trip_updates ∨
        ∃ r ∈ LT, validate_trip_update r = true ∧ tripKey r = k)) := by
  have hVff : (LV.filter validate_vehicle_position).filter
      validate_vehicle_position = LV.filter validate_vehicle_position := by
    simp [List.filter_filter]
  have hTff : (LT.filter validate_trip_update).filter
      validate_trip_update = LT.filter validate_trip_update := by
    simp [List.filter_filter]
  constructor
  · unfold validate_and_clean_vehicles
    rw [validateVehiclesLoop_spec, validateVehiclesLoop_spec, hVff]
    obtain ⟨c1, c2, c3⟩ := dedupV_congr (LV.filter validate_vehicle_position)
      (addVehicleStats s LV.length (LV.countP validate_vehicle_position)
        (LV.countP fun r => !validate_vehicle_position r))
      (addVehicleStats s (LV.filter validate_vehicle_position).length
        ((LV.filter validate_vehicle_position).countP validate_vehicle_position)
        ((LV.filter validate_vehicle_position).countP
          fun r => !validate_vehicle_position r))
      (by simp [addVehicleStats])
    refine ⟨c1, c2 (by simp [addVehicleStats]), ?_, ?_⟩
    · have hc := dedupV_counts (LV.filter validate_vehicle_position)
        (addVehicleStats s LV.length (LV.countP validate_vehicle_position)
          (LV.countP fun r => !validate_vehicle_position r))
      rw [hc]
      simp [addVehicleStats, ← List.countP_eq_length_filter]
    · intro k hk
      rcases dedupV_seen_from _ _ k hk with h | ⟨r, hr, hkey⟩
      · left
        simpa [addVehicleStats] using h
      · right
        exact ⟨r, (List.mem_filter.mp hr).1,
          (List.mem_filter.mp hr).2, hkey⟩
  · unfold validate_and_clean_trip_updates
    rw [validateTripsLoop_spec, validateTripsLoop_spec, hTff]
    obtain ⟨c1, c2, c3⟩ := dedupT_congr (LT.filter validate_trip_update)
      (addTripStats s LT.length (LT.countP validate_trip_update)
        (LT.countP fun r => !validate_trip_update r))
      (addTripStats s (LT.filter validate_trip_update).length
        ((LT.filter validate_trip_update).countP validate_trip_update)
        ((LT.filter validate_trip_update).countP
          fun r => !validate_trip_update r))
      (by simp [addTripStats])
    refine ⟨c1, c2 (by simp [addTripStats]), ?_, ?_⟩
    · have hc := dedupT_counts (LT.filter validate_trip_update)
        (addTripStats s LT.length (LT.countP validate_trip_update)
          (LT.countP fun r => !validate_trip_update r))
      rw [hc]
      simp [addTripStats, ← List.countP_eq_length_filter]
    · intro k hk
      rcases dedupT_seen_from _ _ k hk with h | ⟨r, hr, hkey⟩
      · left
        simpa [addTripStats] using h
      · right
        exact ⟨r, (List.mem_filter.mp hr).1,
          (List.mem_filter.mp hr).2, hkey⟩

/-- An invalid concrete vehicle record (null latitude) for the C8
witness. -/
def vrBad : VehicleRecord := { vr0 with latitude := none }

/-- A valid concrete vehicle record for the C8 witness. -/
def vrC8 : VehicleRecord := { vr0 with vehicle_id := some "w8" }

/-- Witness for C8: an invalid record leaves cache and duplicate counter
where pre-filtering would, and a cache key traced back to a valid input
record. -/
theorem C8_witness :
    ((validate_and_clean_vehicles initialState [vrBad]).1.seen_vehicles
        = (validate_and_clean_vehicles initialState
            ([vrBad].filter validate_vehicle_position)).1.seen_vehicles) ∧
    ((validate_and_clean_vehicles initialState [vrBad]).1.stats.vehicles_duplicate
         + (validate_and_clean_vehicles initialState [vrBad]).2.length
        = initialState.stats.vehicles_duplicate
          + [vrBad].countP validate_vehicle_position) ∧
    (vehicleKey vrC8 ∈ initialState.seen_vehicles ∨
     ∃ r ∈ [vrC8], validate_vehicle_position r = true
       ∧ vehicleKey r = vehicleKey vrC8) := by
  have h1 := C8_validation_precedes_dedup initialState [vrBad] []
  have h2 := C8_validation_precedes_dedup initialState [vrC8] []
  exact ⟨h1.1.1, h1.1.2.2.1,
    h2.1.2.2.2 (vehicleKey vrC8) (by decide)⟩

/-- One `validate_and_clean_*` call in a sequence of invocations of the
same validator instance. -/
inductive ValidatorCall where
  | vehicles (records : List VehicleRecord)
  | tripUpdates (records : List TripRecord)

/-- Thread a sequence of cleaning calls through a validator state. -/
def runCalls (s : ValidatorState) : List ValidatorCall → ValidatorState
  | [] => s
  | .vehicles L :: rest => runCalls (validate_and_clean_vehicles s L).1 rest
  | .tripUpdates L :: rest =>
    runCalls (validate_and_clean_trip_updates s L).1 rest

/-- Pointwise order on the eight counters. -/
def statsLE (a b : QualityStats) : Prop :=
  a.vehicles_processed ≤ b.vehicles_processed ∧
  a.vehicles_valid ≤ b.vehicles_valid ∧
  a.vehicles_invalid ≤ b.vehicles_invalid ∧
  a.vehicles_duplicate ≤ b.vehicles_duplicate ∧
  a.trip_updates_processed ≤ b.trip_updates_processed ∧
  a.trip_updates_valid ≤ b.trip_updates_valid ∧
  a.trip_updates_invalid ≤ b.trip_updates_invalid ∧
  a.trip_updates_duplicate ≤ b.trip_updates_duplicate

theorem statsLE_refl (a : QualityStats) : statsLE a a := by
  unfold statsLE
  omega

theorem statsLE_trans (a b c : QualityStats) (h1 : statsLE a b)
    (h2 : statsLE b c) : statsLE a c := by
  unfold statsLE at *
  omega

/-- Counter bookkeeping of one `validate_and_clean_vehicles` call. -/
theorem vacV_stats (s : ValidatorState) (L : List VehicleRecord) :
    (validate_and_clean_vehicles s L).1.stats.vehicles_processed
        = s.stats.vehicles_processed + L.length ∧
    (validate_and_clean_vehicles s L).1.stats.vehicles_valid
        = s.stats.vehicles_valid + L.countP validate_vehicle_position ∧
    (validate_and_clean_vehicles s L).1.stats.vehicles_invalid
        = s.stats.vehicles_invalid
          + L.countP (fun r => !validate_vehicle_position r) ∧
    (validate_and_clean_vehicles s L).1.stats.vehicles_duplicate
        + (validate_and_clean_vehicles s L).2.length
        = s.stats.vehicles_duplicate + L.countP validate_vehicle_position ∧
    statsLE s.stats (validate_and_clean_vehicles s L).1.stats ∧
    (validate_and_clean_vehicles s L).1.stats.trip_updates_processed
        = s.stats.trip_updates_processed ∧
    (validate_and_clean_vehicles s L).1.stats.trip_updates_valid
        = s.stats.trip_updates_valid ∧
    (validate_and_clean_vehicles s L).1.stats.trip_updates_invalid
        = s.stats.trip_updates_invalid ∧
    (validate_and_clean_vehicles s L).1.stats.trip_updates_duplicate
        = s.stats.trip_updates_duplicate := by
  unfold validate_and_clean_vehicles
  rw [validateVehiclesLoop_spec]
  simp only [addVehicleStats, ← List.countP_eq_length_filter]
  obtain ⟨-, f2, f3, f4, f5, f6, f7, f8⟩ :=
    dedupV_frame (L.filter validate_vehicle_position)
      (addVehicleStats s L.length (L.countP validate_vehicle_position)
        (L.countP fun r => !validate_vehicle_position r))
  have hc := dedupV_counts (L.filter validate_vehicle_position)
    (addVehicleStats s L.length (L.countP validate_vehicle_position)
      (L.countP fun r => !validate_vehicle_position r))
  have hm := dedupV_dup_mono (L.filter validate_vehicle_position)
    (addVehicleStats s L.length (L.countP validate_vehicle_position)
      (L.countP fun r => !validate_vehicle_position r))
  simp only [addVehicleStats, ← List.countP_eq_length_filter] at f2 f3 f4 f5 f6 f7 f8 hc hm
  refine ⟨by rw [f2], by rw [f3], by rw [f4], by rw [hc], ?_,
    by rw [f5], by rw [f6], by rw [f7], by rw [f8]⟩
  unfold statsLE
  rw [f2, f3, f4, f5, f6, f7, f8]
  refine ⟨by omega, by omega, by omega, ?_, by omega, by omega, by omega, ?_⟩
  · exact le_trans (by omega) hm
  · omega

/-- Counter bookkeeping of one `validate_and_clean_trip_updates` call. -/
theorem vacT_stats (s : ValidatorState) (L : List TripRecord) :
    (validate_and_clean_trip_updates s L).1.stats.trip_updates_processed
        = s.stats.trip_updates_processed + L.length ∧
    (validate_and_clean_trip_updates s L).1.stats.trip_updates_valid
        = s.stats.trip_updates_valid + L.countP validate_trip_update ∧
    (validate_and_clean_trip_updates s L).1.stats.trip_updates_invalid
        = s.stats.trip_updates_invalid
          + L.countP (fun r => !validate_trip_update r) ∧
    (validate_and_clean_trip_updates s L).1.stats.trip_updates_duplicate
        + (validate_and_clean_trip_updates s L).2.length
        = s.stats.trip_updates_duplicate + L.countP validate_trip_update ∧
    statsLE s.stats (validate_and_clean_trip_updates s L).1.stats ∧
    (validate_and_clean_trip_updates s L).1.stats.vehicles_processed
        = s.stats.vehicles_processed ∧
    (validate_and_clean_trip_updates s L).1.stats.vehicles_valid
        = s.stats.vehicles_valid ∧
    (validate_and_clean_trip_updates s L).1.stats.vehicles_invalid
        = s.stats.vehicles_invalid ∧
    (validate_and_clean_trip_updates s L).1.stats.vehicles_duplicate
        = s.stats.vehicles_duplicate := by
  unfold validate_and_clean_trip_updates
  rw [validateTripsLoop_spec]
  simp only [addTripStats, ← List.countP_eq_length_filter]
  obtain ⟨-, f2, f3, f4, f5, f6, f7, f8⟩ :=
    dedupT_frame (L.filter validate_trip_update)
      (addTripStats s L.length (L.countP validate_trip_update)
        (L.countP fun r => !validate_trip_update r))
  have hc := dedupT_counts (L.filter validate_trip_update)
    (addTripStats s L.length (L.countP validate_trip_update)
      (L.countP fun r => !validate_trip_update r))
  have hm := dedupT_dup_mono (L.filter validate_trip_update)
    (addTripStats s L.length (L.countP validate_trip_update)
      (L.countP fun r => !validate_trip_update r))
  simp only [addTripStats, ← List.countP_eq_length_filter] at f2 f3 f4 f5 f6 f7 f8 hc hm
  refine ⟨by rw [f6], by rw [f7], by rw [f8], by rw [hc], ?_,
    by rw [f2], by rw [f3], by rw [f4], by rw [f5]⟩
  unfold statsLE
  rw [f2, f3, f4, f5, f6, f7, f8]
  refine ⟨by omega, by omega, by omega, by omega, by omega, by omega, by omega, ?_⟩
  exact le_trans (by omega) hm

/-- A list splits between the records a predicate accepts and those it
rejects. -/
theorem countP_split {α : Type} (p : α → Bool) (l : List α) :
    l.length = l.countP p + l.countP (fun r => !p r) := by
  induction l with
  | nil => simp
  | cons x xs ih =>
    by_cases h : p x <;>
      simp [List.countP_cons, List.length_cons, h, ih] <;>
      omega

/-- The processed = valid + invalid balance is preserved by every call. -/
theorem runCalls_balance (ops : List ValidatorCall) (s : ValidatorState)
    (hv : s.stats.vehicles_processed
        = s.stats.vehicles_valid + s.stats.vehicles_invalid)
    (ht : s.stats.trip_updates_processed
        = s.stats.trip_updates_valid + s.stats.trip_updates_invalid) :
    (runCalls s ops).stats.vehicles_processed
        = (runCalls s ops).stats.vehicles_valid
          + (runCalls s ops).stats.vehicles_invalid ∧
    (runCalls s ops).stats.trip_updates_processed
        = (runCalls s ops).stats.trip_updates_valid
          + (runCalls s ops).stats.trip_updates_invalid := by
  induction ops generalizing s with
  | nil => exact ⟨hv, ht⟩
  | cons op rest ih =>
    cases op with
    | vehicles L =>
      obtain ⟨e1, e2, e3, -, -, t1, t2, t3, -⟩ := vacV_stats s L
      have hsplit := countP_split validate_vehicle_position L
      refine ih _ (by omega) (by omega)
    | tripUpdates L =>
      obtain ⟨e1, e2, e3, -, -, t1, t2, t3, -⟩ := vacT_stats s L
      have hsplit := countP_split validate_trip_update L
      refine ih _ (by omega) (by omega)

/-- Counters never decrease along a sequence of calls. -/
theorem runCalls_mono (ops : List ValidatorCall) (s : ValidatorState) :
    statsLE s.stats (runCalls s ops).stats := by
  induction ops generalizing s with
  | nil => exact statsLE_refl _
  | cons op rest ih =>
    cases op with
    | vehicles L =>
      exact statsLE_trans _ _ _ (vacV_stats s L).2.2.2.2.1 (ih _)
    | tripUpdates L =>
      exact statsLE_trans _ _ _ (vacT_stats s L).2.2.2.2.1 (ih _)

/-- Splitting a call sequence. -/
theorem runCalls_append (a b : List ValidatorCall) (s : ValidatorState) :
    runCalls s (a ++ b) = runCalls (runCalls s a) b := by
  induction a generalizing s with
  | nil => rfl
  | cons op rest ih =>
    cases op with
    | vehicles L => simp only [List.cons_append, runCalls, List.append_eq, ih]
    | tripUpdates L => simp only [List.cons_append, runCalls, List.append_eq, ih]

/-- C9: after any sequence of cleaning calls from a fresh validator,
processed = valid + invalid for both kinds; each call adds the number of
newly valid records to the valid counter and splits them between the
returned list and the duplicate counter; and every counter is
non-negative (at or above its initial zero) and non-decreasing across
further calls. -/
theorem C9_stats_invariants (ops more : List ValidatorCall)
    (s : ValidatorState) (LV : List VehicleRecord) (LT : List TripRecord) :
    ((runCalls initialState ops).stats.vehicles_processed
        = (runCalls initialState ops).stats.vehicles_valid
          + (runCalls initialState ops).stats.vehicles_invalid ∧
     (runCalls initialState ops).stats.trip_updates_processed
        = (runCalls initialState ops).stats.trip_updates_valid
          + (runCalls initialState ops).stats.trip_updates_invalid) ∧
    ((validate_and_clean_vehicles s LV).1.stats.vehicles_valid
        = s.stats.vehicles_valid + LV.countP validate_vehicle_position ∧
     (validate_and_clean_vehicles s LV).1.stats.vehicles_duplicate
         + (validate_and_clean_vehicles s LV).2.length
        = s.stats.vehicles_duplicate + LV.countP validate_vehicle_position ∧
     (validate_and_clean_trip_updates s LT).1.stats.trip_updates_valid
        = s.stats.trip_updates_valid + LT.countP validate_trip_update ∧
     (validate_and_clean_trip_updates s LT).1.stats.trip_updates_duplicate
         + (validate_and_clean_trip_updates s LT).2.length
        = s.stats.trip_updates_duplicate + LT.countP validate_trip_update) ∧
    (statsLE s.stats (validate_and_clean_vehicles s LV).1.stats ∧
     statsLE s.stats (validate_and_clean_trip_updates s LT).1.stats) ∧
    statsLE initialState.stats (runCalls initialState ops).stats ∧
    statsLE (runCalls initialState ops).stats
      (runCalls initialState (ops ++ more)).stats := by
  obtain ⟨hv1, hv2, hv3, hv4, hv5, -⟩ := vacV_stats s LV
  obtain ⟨ht1, ht2, ht3, ht4, ht5, -⟩ := vacT_stats s LT
  refine ⟨runCalls_balance ops initialState rfl rfl,
    ⟨hv2, hv4, ht2, ht4⟩, ⟨hv5, ht5⟩,
    runCalls_mono ops initialState, ?_⟩
  rw [runCalls_append]
  exact runCalls_mono more _

/-- A valid vehicle record with vehicle_id "a_b" and timestamp "c". -/
def vrA : VehicleRecord :=
  { vr0 with vehicle_id := some "a_b", timestamp := some "c" }

/-- A valid vehicle record with vehicle_id "a" and timestamp "b_c". -/
def vrB : VehicleRecord :=
  { vr0 with vehicle_id := some "a", timestamp := some "b_c" }

/-- C10: the underscore-joined dedup key is not injective: `vrA` and
`vrB` are both valid, have distinct (vehicle_id, timestamp) pairs, yet
share the key "a_b_c", so the second record is dropped and counted as a
duplicate. -/
theorem C10_dedup_key_collision :
    vehicleKey vrA = vehicleKey vrB ∧
    (vrA.vehicle_id, vrA.timestamp) ≠ (vrB.vehicle_id, vrB.timestamp) ∧
    validate_vehicle_position vrA = true ∧
    validate_vehicle_position vrB = true ∧
    (validate_and_clean_vehicles initialState [vrA, vrB]).2 = [vrA] ∧
    (validate_and_clean_vehicles initialState
      [vrA, vrB]).1.stats.vehicles_duplicate = 1 := by
  exact ⟨by decide, by decide, by decide, by decide, by decide, by decide⟩

end TransitAnalytics
